import Mathlib

/-!
Shallow embedding of the workout-tracking backend's core logic
(`backend/models/Workout` workout schema methods, `backend/services/workoutService`
statistics, and the workout HTTP controller), together with theorems checking the
natural-language specification against it.

Conventions of the embedding:
* JavaScript numbers are modelled as exact rationals (`ℚ`); timestamps
  (millisecond counts) as `Int`.
* `Math.round` is modelled by `jsRound q = ⌊q + 1/2⌋`, which agrees with
  JavaScript's round-half-toward-positive-infinity on every rational.
* A method that `throw`s is modelled as a function into `Except WError _`;
  a thrown error leaves the persisted document untouched, which the
  `try*` wrappers make explicit by returning the pre-state on error.
* Mongoose validation that runs at `save()` time is modelled by
  `workoutSetsValid`, restricted to the set-level numeric constraints
  (`setNumber ≥ 1`, `weight ≥ 0`, `reps ≥ 1`) that decide the claims below.
-/

namespace WorkoutApp

/-- One set inside an exercise log (`setSchema`): `setNumber` (1-based),
`weight` (kg), `reps`, `completed`, and the optional completion timestamp. -/
structure SetEntry where
  setNumber : Nat
  weight : ℚ
  reps : ℚ
  completed : Bool
  completedAt : Option Int
deriving Repr, DecidableEq

instance : Inhabited SetEntry := ⟨⟨0, 0, 0, false, none⟩⟩

/-- One exercise log inside a workout (`exerciseLogSchema`): a reference to a
catalog exercise (modelled as a numeric id), its ordered sets, and notes. -/
structure ExerciseLog where
  exercise : Nat
  sets : List SetEntry
  notes : String
deriving Repr, DecidableEq

instance : Inhabited ExerciseLog := ⟨⟨0, [], ""⟩⟩

/-- Workout status enum: `'进行中'` (in progress) or `'已完成'` (completed). -/
inductive WorkoutStatus
  | inProgress
  | completed
deriving Repr, DecidableEq

/-- A workout record (`workoutSchema`). Dates and times are millisecond
timestamps. `duration` and `intensity` are absent until completion. -/
structure Workout where
  username : String
  date : Int
  startTime : Int
  endTime : Option Int
  duration : Option Int
  exercises : List ExerciseLog
  intensity : Option ℚ
  notes : String
  status : WorkoutStatus
deriving Repr, DecidableEq

/-- JavaScript's `Math.round`: round half toward positive infinity. -/
def jsRound (q : ℚ) : Int := Int.floor (q + 1 / 2)

/-- Errors thrown by the workout schema methods / mongoose validation:
`'动作索引超出范围'` (exercise index out of range), `'组数索引超出范围'`
(set index out of range), and schema-constraint `ValidationError`. -/
inductive WError
  | rangeErrorExercise
  | rangeErrorSet
  | validationError
deriving Repr, DecidableEq

/-- Number of sets of one exercise log (one `exercise.sets.forEach` pass). -/
def logTotalSets (e : ExerciseLog) : Nat := e.sets.length

/-- Number of completed sets of one exercise log (`if (set.completed) completedSets++`). -/
def logCompletedSets (e : ExerciseLog) : Nat :=
  (e.sets.map (fun s => if s.completed then 1 else 0)).sum

/-- Accumulated `weight * reps` over one exercise log's sets. -/
def logVolume (e : ExerciseLog) : ℚ :=
  (e.sets.map (fun s => s.weight * s.reps)).sum

/-- `totalSets` accumulated by `calculateIntensity`'s double `forEach`. -/
def workoutTotalSets (w : Workout) : Nat :=
  (w.exercises.map logTotalSets).sum

/-- `completedSets` accumulated by `calculateIntensity`'s double `forEach`. -/
def workoutCompletedSets (w : Workout) : Nat :=
  (w.exercises.map logCompletedSets).sum

/-- `totalWeight` accumulated by `calculateIntensity`'s double `forEach`. -/
def workoutTotalWeight (w : Workout) : ℚ :=
  (w.exercises.map logVolume).sum

/-- `workoutSchema.methods.calculateIntensity`: completion-rate / volume blend,
`Math.min(Math.round(intensity * 10) / 10, 10)`. -/
def calculateIntensity (w : Workout) : ℚ :=
  let totalSets := workoutTotalSets w
  let totalWeight := workoutTotalWeight w
  let completedSets := workoutCompletedSets w
  let completionRate : ℚ := if totalSets > 0 then (completedSets : ℚ) / (totalSets : ℚ) else 0
  let weightFactor : ℚ := min (totalWeight / 1000) 1
  let intensity : ℚ := (completionRate * 0.6 + weightFactor * 0.4) * 10
  min ((jsRound (intensity * 10) : ℚ) / 10) 10

/-- `workoutSchema.methods.completeWorkout`: set `endTime`, derive `duration`
in rounded minutes, store the computed intensity, and mark completed. -/
def completeWorkout (w : Workout) (now : Int) : Workout :=
  { w with
    endTime := some now
    duration := some (jsRound (((now - w.startTime : Int) : ℚ) / 60000))
    intensity := some (calculateIntensity w)
    status := .completed }

/-- `workoutSchema.methods.addExercise`: append `{exercise, sets: []}`. -/
def addExercise (w : Workout) (exerciseId : Nat) : Workout :=
  { w with exercises := w.exercises ++ [⟨exerciseId, [], ""⟩] }

/-- `workoutSchema.methods.addSet`: bounds-check the exercise index, then push
a set numbered `exercise.sets.length + 1` with `completed: false`. -/
def addSet (w : Workout) (exerciseIndex : Int) (weight reps : ℚ) :
    Except WError Workout :=
  if exerciseIndex < 0 ∨ (w.exercises.length : Int) ≤ exerciseIndex then
    .error .rangeErrorExercise
  else
    let i := exerciseIndex.toNat
    let ex := w.exercises.getD i default
    let newSet : SetEntry := ⟨ex.sets.length + 1, weight, reps, false, none⟩
    .ok { w with exercises := w.exercises.set i { ex with sets := ex.sets ++ [newSet] } }

/-- Marking one set complete (`set.completed = true; set.completedAt = new Date()`). -/
def setComplete (s : SetEntry) (now : Int) : SetEntry :=
  { s with completed := true, completedAt := some now }

/-- `workoutSchema.methods.completeSet`: bounds-check both indices, then mark
the addressed set completed with the current timestamp. -/
def completeSet (w : Workout) (exerciseIndex setIndex : Int) (now : Int) :
    Except WError Workout :=
  if exerciseIndex < 0 ∨ (w.exercises.length : Int) ≤ exerciseIndex then
    .error .rangeErrorExercise
  else
    let i := exerciseIndex.toNat
    let ex := w.exercises.getD i default
    if setIndex < 0 ∨ (ex.sets.length : Int) ≤ setIndex then
      .error .rangeErrorSet
    else
      let j := setIndex.toNat
      let s := ex.sets.getD j default
      .ok { w with exercises := w.exercises.set i { ex with sets := ex.sets.set j (setComplete s now) } }

/-- Renumbering pass of `removeSet`
(`exercise.sets.forEach((set, index) => set.setNumber = index + 1)`),
with the running index starting at `n`. -/
def renumberFrom (n : Nat) : List SetEntry → List SetEntry
  | [] => []
  | s :: rest => { s with setNumber := n } :: renumberFrom (n + 1) rest

/-- Renumber an exercise log's sets contiguously from 1. -/
def renumber (sets : List SetEntry) : List SetEntry := renumberFrom 1 sets

/-- `workoutSchema.methods.removeSet`: bounds-check both indices, splice out
the addressed set, and renumber the survivors 1..N. -/
def removeSet (w : Workout) (exerciseIndex setIndex : Int) :
    Except WError Workout :=
  if exerciseIndex < 0 ∨ (w.exercises.length : Int) ≤ exerciseIndex then
    .error .rangeErrorExercise
  else
    let i := exerciseIndex.toNat
    let ex := w.exercises.getD i default
    if setIndex < 0 ∨ (ex.sets.length : Int) ≤ setIndex then
      .error .rangeErrorSet
    else
      let j := setIndex.toNat
      .ok { w with exercises := w.exercises.set i { ex with sets := renumber (ex.sets.eraseIdx j) } }

/-- The persisted state after an `addSet` request: the mutated document on
success, the untouched document when the method throws. -/
def tryAddSet (w : Workout) (exerciseIndex : Int) (weight reps : ℚ) : Workout :=
  match addSet w exerciseIndex weight reps with
  | .ok w' => w'
  | .error _ => w

/-- The persisted state after a `completeSet` request. -/
def tryCompleteSet (w : Workout) (exerciseIndex setIndex now : Int) : Workout :=
  match completeSet w exerciseIndex setIndex now with
  | .ok w' => w'
  | .error _ => w

/-- The persisted state after a `removeSet` request. -/
def tryRemoveSet (w : Workout) (exerciseIndex setIndex : Int) : Workout :=
  match removeSet w exerciseIndex setIndex with
  | .ok w' => w'
  | .error _ => w

/-- The set-level constraints mongoose enforces at `save()`:
`setNumber ≥ 1`, `weight ≥ 0`, `reps ≥ 1` (from `setSchema`'s `min` validators). -/
def setValid (s : SetEntry) : Prop :=
  1 ≤ s.setNumber ∧ 0 ≤ s.weight ∧ 1 ≤ s.reps

instance : DecidablePred setValid := fun s => by
  unfold setValid; infer_instance

/-- Document-wide set validation run by `save()`. -/
def workoutSetsValid (w : Workout) : Prop :=
  ∀ e ∈ w.exercises, ∀ s ∈ e.sets, setValid s

instance : DecidablePred workoutSetsValid := fun w => by
  unfold workoutSetsValid; infer_instance

/-- `addSet` followed by mongoose validation at `save()`: a constraint
violation surfaces as a `ValidationError` and nothing is persisted. -/
def addSetSave (w : Workout) (exerciseIndex : Int) (weight reps : ℚ) :
    Except WError Workout :=
  match addSet w exerciseIndex weight reps with
  | .error e => .error e
  | .ok w' => if workoutSetsValid w' then .ok w' else .error .validationError

/-- The spec's reading of the intensity contract (§4.2), written from its own
words: flatten every set of every exercise log, take `completedSets / totalSets`
(0 when there is no set), `min(totalWeight / 1000, 1)`, blend with weights
0.6 / 0.4, scale to 0–10, round to one decimal, clamp at 10. -/
def specIntensity (w : Workout) : ℚ :=
  let allSets := (w.exercises.map (fun e => e.sets)).flatten
  let totalSets := allSets.length
  let completedSets := (allSets.filter (fun s => s.completed)).length
  let totalWeight : ℚ := (allSets.map (fun s => s.weight * s.reps)).sum
  let completionRate : ℚ := if totalSets = 0 then 0 else (completedSets : ℚ) / (totalSets : ℚ)
  let weightFactor : ℚ := min (totalWeight / 1000) 1
  min ((jsRound ((completionRate * 0.6 + weightFactor * 0.4) * 10 * 10) : ℚ) / 10) 10

/-- The renumbering contract: position `j` holds `setNumber = j + 1`. -/
def setsNumbered (sets : List SetEntry) : Prop :=
  ∀ j (h : j < sets.length), (sets.get ⟨j, h⟩).setNumber = j + 1

theorem setsNumbered_getElem {sets : List SetEntry} (hn : setsNumbered sets)
    (j : Nat) (h : j < sets.length) : sets[j].setNumber = j + 1 := hn j h

/-- Every exercise log of the workout satisfies the renumbering contract. -/
def workoutNumbered (w : Workout) : Prop :=
  ∀ e ∈ w.exercises, setsNumbered e.sets

/-- A set-mutating request against a workout record. -/
inductive WOp
  | addSetOp (exerciseIndex : Int) (weight reps : ℚ)
  | removeSetOp (exerciseIndex setIndex : Int)

/-- Persisted state after one request: mutated document on success, the
untouched document when the schema method throws. -/
def applyOp (w : Workout) : WOp → Workout
  | .addSetOp ei weight reps => tryAddSet w ei weight reps
  | .removeSetOp ei si => tryRemoveSet w ei si

/-- Persisted state after a sequence of set-mutating requests. -/
def applyOps (w : Workout) (ops : List WOp) : Workout :=
  ops.foldl applyOp w

/- ### HTTP controller layer (workoutController)

Each handler is modelled relative to an already-resolved record `stored`
(the service's not-found path is orthogonal to the claims below). The
caller-supplied `username` is `Option String`, `none` standing for a missing
(or empty, hence falsy) request field, which the controllers answer with 400. -/

/-- HTTP statuses the workout controller produces on these paths. -/
inductive HttpStatus
  | ok
  | badRequest
  | forbidden
  | notFound
deriving Repr, DecidableEq

/-- The controller's response envelope, restricted to status, `success`,
and the optional workout payload in `data`. -/
structure WResponse where
  status : HttpStatus
  success : Bool
  data : Option Workout
deriving Repr, DecidableEq

namespace Controller

/-- `WorkoutController.getWorkoutById`: 400 on missing username, 403 when the
record's owner differs from the caller, otherwise the record. -/
def getWorkoutById (stored : Workout) (username : Option String) : WResponse :=
  match username with
  | none => ⟨.badRequest, false, none⟩
  | some u =>
    if stored.username ≠ u then ⟨.forbidden, false, none⟩
    else ⟨.ok, true, some stored⟩

/-- `WorkoutController.addExerciseToWorkout`: ownership check, then the
schema's `addExercise`. Returns the response plus the persisted record. -/
def addExerciseToWorkout (stored : Workout) (username : Option String)
    (exerciseId : Nat) : WResponse × Workout :=
  match username with
  | none => (⟨.badRequest, false, none⟩, stored)
  | some u =>
    if stored.username ≠ u then (⟨.forbidden, false, none⟩, stored)
    else
      let w' := addExercise stored exerciseId
      (⟨.ok, true, some w'⟩, w')

/-- `WorkoutController.addSetToWorkout`: ownership check, then the schema's
`addSet`; a thrown range error is answered with 400 and nothing is persisted. -/
def addSetToWorkout (stored : Workout) (username : Option String)
    (exerciseIndex : Int) (weight reps : ℚ) : WResponse × Workout :=
  match username with
  | none => (⟨.badRequest, false, none⟩, stored)
  | some u =>
    if stored.username ≠ u then (⟨.forbidden, false, none⟩, stored)
    else
      match addSet stored exerciseIndex weight reps with
      | .ok w' => (⟨.ok, true, some w'⟩, w')
      | .error _ => (⟨.badRequest, false, none⟩, stored)

/-- `WorkoutController.completeSetInWorkout`: ownership check, then the
schema's `completeSet`. -/
def completeSetInWorkout (stored : Workout) (username : Option String)
    (exerciseIndex setIndex now : Int) : WResponse × Workout :=
  match username with
  | none => (⟨.badRequest, false, none⟩, stored)
  | some u =>
    if stored.username ≠ u then (⟨.forbidden, false, none⟩, stored)
    else
      match completeSet stored exerciseIndex setIndex now with
      | .ok w' => (⟨.ok, true, some w'⟩, w')
      | .error _ => (⟨.badRequest, false, none⟩, stored)

/-- `WorkoutController.deleteSetFromWorkout`: ownership check, then the
schema's `removeSet`. -/
def deleteSetFromWorkout (stored : Workout) (username : Option String)
    (exerciseIndex setIndex : Int) : WResponse × Workout :=
  match username with
  | none => (⟨.badRequest, false, none⟩, stored)
  | some u =>
    if stored.username ≠ u then (⟨.forbidden, false, none⟩, stored)
    else
      match removeSet stored exerciseIndex setIndex with
      | .ok w' => (⟨.ok, true, some w'⟩, w')
      | .error _ => (⟨.badRequest, false, none⟩, stored)

/-- `WorkoutController.completeWorkout`: ownership check, then the schema's
`completeWorkout`. -/
def completeWorkoutReq (stored : Workout) (username : Option String)
    (now : Int) : WResponse × Workout :=
  match username with
  | none => (⟨.badRequest, false, none⟩, stored)
  | some u =>
    if stored.username ≠ u then (⟨.forbidden, false, none⟩, stored)
    else
      let w' := completeWorkout stored now
      (⟨.ok, true, some w'⟩, w')

/-- The raw `req.body` of the PUT route, restricted to the fields the claims
need: `findByIdAndUpdate` applies whatever fields the body carries, including
`username` itself. -/
structure UpdateData where
  username : Option String
  notes : Option String
deriving Repr, DecidableEq

/-- Field application performed by `findByIdAndUpdate`. -/
def applyUpdateData (stored : Workout) (upd : UpdateData) : Workout :=
  { stored with
    username := upd.username.getD stored.username
    notes := upd.notes.getD stored.notes }

/-- `WorkoutController.updateWorkout`: passes `req.body` straight to
`workoutService.updateWorkout` — it reads no `username` for an ownership
check and never answers 403. -/
def updateWorkout (stored : Workout) (body : UpdateData) : WResponse × Workout :=
  let w' := applyUpdateData stored body
  (⟨.ok, true, some w'⟩, w')

/-- `WorkoutController.deleteWorkout`: deletes by id only — it reads no
`username` for an ownership check and never answers 403. The second component
is the persisted record after the request (`none` = deleted). -/
def deleteWorkout (stored : Workout) : WResponse × Option Workout :=
  (⟨.ok, true, none⟩, none)

end Controller

/- ### Statistics (`WorkoutService.getWorkoutStats`) -/

/-- What one workout adds to the intensity accumulator:
`if (workout.intensity) stats.averageIntensity += workout.intensity` —
an absent intensity and the falsy value 0 both contribute nothing. -/
def intensityContribution (w : Workout) : ℚ :=
  match w.intensity with
  | some q => if q = 0 then 0 else q
  | none => 0

/-- The slice of `getWorkoutStats`'s result the claims are about. -/
structure WorkoutStats where
  totalWorkouts : Nat
  totalSets : Nat
  totalExercises : Nat
  averageIntensity : ℚ
deriving Repr, DecidableEq

/-- `WorkoutService.getWorkoutStats` over the fetched records: counts, and
`averageIntensity = round((acc / totalWorkouts) * 10) / 10` guarded by
`totalWorkouts > 0` (the per-date and body-part maps are omitted here). -/
def getWorkoutStats (ws : List Workout) : WorkoutStats :=
  let totalWorkouts := ws.length
  let acc := (ws.map intensityContribution).sum
  { totalWorkouts := totalWorkouts
    totalSets := (ws.map (fun w => (w.exercises.map (fun e => e.sets.length)).sum)).sum
    totalExercises := (ws.map (fun w => w.exercises.length)).sum
    averageIntensity :=
      if 0 < totalWorkouts then (jsRound ((acc / (totalWorkouts : ℚ)) * 10) : ℚ) / 10 else 0 }

/-- The intensity values that are present on the fetched records. -/
def definedIntensities (ws : List Workout) : List ℚ :=
  ws.filterMap (fun w => w.intensity)

/-- The spec's reading of `avgIntensity`: the arithmetic mean of the defined
intensity values (rounded like the code rounds), 0 when none are defined. -/
def meanDefinedIntensity (ws : List Workout) : ℚ :=
  let l := definedIntensities ws
  if l.length = 0 then 0 else (jsRound ((l.sum / (l.length : ℚ)) * 10) : ℚ) / 10

/- ### Per-exercise history (ExerciseHistory) -/

/-- Modelled from the spec: one qualifying session of the ExerciseHistory
pipeline (§4.3) — a workout in the window containing the queried exercise,
reduced to the sets logged for it. The backing
`WorkoutService.getExerciseHistory` body is absent from the sources (only its
controller and route are present), so the pipeline follows the spec's words. -/
structure HistorySession where
  date : Int
  sets : List SetEntry
deriving Repr, DecidableEq

/-- Modelled from the spec: a session's volume, `sum(weight * reps)`. -/
def sessionVolume (h : HistorySession) : ℚ :=
  (h.sets.map (fun s => s.weight * s.reps)).sum

/-- Average of a list of rationals, 0 for the empty list. -/
def avgList (l : List ℚ) : ℚ :=
  if l.length = 0 then 0 else l.sum / (l.length : ℚ)

/-- Modelled from the spec: `volumeChangeRate` — with fewer than 6 qualifying
sessions the pinned fallback 0; otherwise the percentage change of the average
volume of the 3 most recent sessions (the history list is most-recent-first)
against the average of the 3 before those, guarded to 0 when the older average
is 0 so that the result is never undefined. -/
def volumeChangeRate (sessions : List HistorySession) : ℚ :=
  if sessions.length < 6 then 0
  else
    let volumes := sessions.map sessionVolume
    let recentAvg := avgList (volumes.take 3)
    let prevAvg := avgList ((volumes.drop 3).take 3)
    if prevAvg = 0 then 0 else ((recentAvg - prevAvg) / prevAvg) * 100

/-! ## Helper lemmas -/

theorem jsRound_le_jsRound {a b : ℚ} (h : a ≤ b) : jsRound a ≤ jsRound b :=
  Int.floor_le_floor (by linarith)

theorem jsRound_zero : jsRound 0 = 0 := by
  norm_num [jsRound]

theorem jsRound_nonneg {a : ℚ} (h : 0 ≤ a) : 0 ≤ jsRound a := by
  have := jsRound_le_jsRound h
  rwa [jsRound_zero] at this

theorem sum_map_set_eq {α M : Type*} [AddCommMonoid M] (f : α → M) :
    ∀ (l : List α) (i : Nat) (a : α),
      (∀ hi : i < l.length, f a = f (l.get ⟨i, hi⟩)) →
      ((l.set i a).map f).sum = (l.map f).sum := by
  intro l
  induction l with
  | nil => intro i a _; rfl
  | cons x xs ih =>
    intro i a h
    cases i with
    | zero =>
      have hx : f a = f x := h (Nat.succ_pos _)
      simp [List.set, hx]
    | succ n =>
      have := ih n a (fun hi => h (Nat.succ_lt_succ hi))
      simp only [List.set, List.map_cons, List.sum_cons, this]

theorem sum_map_set_le (f : α → Nat) :
    ∀ (l : List α) (i : Nat) (a : α),
      (∀ hi : i < l.length, f (l.get ⟨i, hi⟩) ≤ f a) →
      (l.map f).sum ≤ ((l.set i a).map f).sum := by
  intro l
  induction l with
  | nil => intro i a _; exact Nat.le_refl _
  | cons x xs ih =>
    intro i a h
    cases i with
    | zero =>
      have hx : f x ≤ f a := h (Nat.succ_pos _)
      simp only [List.set, List.map_cons, List.sum_cons]
      exact Nat.add_le_add hx (Nat.le_refl _)
    | succ n =>
      have := ih n a (fun hi => h (Nat.succ_lt_succ hi))
      simp only [List.set, List.map_cons, List.sum_cons]
      exact Nat.add_le_add (Nat.le_refl _) this

theorem getD_set_self {α : Type*} [Inhabited α] :
    ∀ (l : List α) (i : Nat) (a : α), i < l.length →
      (l.set i a).getD i default = a := by
  intro l
  induction l with
  | nil => intro i a h; exact absurd h (Nat.not_lt_zero _)
  | cons x xs ih =>
    intro i a h
    cases i with
    | zero => rfl
    | succ n => exact ih n a (Nat.lt_of_succ_lt_succ h)

theorem getD_set_mem {α : Type*} [Inhabited α] (l : List α) (i : Nat) (a : α)
    (h : i < l.length) : a ∈ l.set i a := by
  have hlen : i < (l.set i a).length := by
    rwa [List.length_set]
  have h2 : (l.set i a)[i] = a := List.getElem_set_self hlen
  exact List.mem_iff_getElem.mpr ⟨i, hlen, h2⟩

theorem renumberFrom_length (n : Nat) (l : List SetEntry) :
    (renumberFrom n l).length = l.length := by
  induction l generalizing n with
  | nil => rfl
  | cons s rest ih => simp [renumberFrom, ih]

theorem renumberFrom_setNumber (l : List SetEntry) :
    ∀ (n j : Nat) (h : j < (renumberFrom n l).length),
      ((renumberFrom n l).get ⟨j, h⟩).setNumber = n + j := by
  induction l with
  | nil =>
    intro n j h
    rw [renumberFrom_length] at h
    exact absurd h (Nat.not_lt_zero _)
  | cons s rest ih =>
    intro n j h
    cases j with
    | zero => rfl
    | succ m =>
      have hm : m < (renumberFrom (n + 1) rest).length := by
        simpa [renumberFrom] using Nat.lt_of_succ_lt_succ h
      have := ih (n + 1) m hm
      simpa [renumberFrom, Nat.add_assoc, Nat.add_comm 1 m] using this

theorem renumber_numbered (l : List SetEntry) : setsNumbered (renumber l) := by
  intro j h
  have := renumberFrom_setNumber l 1 j h
  simpa [renumber, Nat.add_comm 1 j] using this

/-- The payload of a set, `setNumber` excluded. -/
def setData (s : SetEntry) : ℚ × ℚ × Bool × Option Int :=
  (s.weight, s.reps, s.completed, s.completedAt)

theorem renumberFrom_setData (n : Nat) (l : List SetEntry) :
    (renumberFrom n l).map setData = l.map setData := by
  induction l generalizing n with
  | nil => rfl
  | cons s rest ih => simp [renumberFrom, setData, ih]

theorem addSet_eq_error (w : Workout) (ei : Int) (weight reps : ℚ)
    (h : ei < 0 ∨ (w.exercises.length : Int) ≤ ei) :
    addSet w ei weight reps = .error .rangeErrorExercise := by
  unfold addSet
  rw [if_pos h]

theorem addSet_eq_ok (w : Workout) (ei : Int) (weight reps : ℚ)
    (h0 : 0 ≤ ei) (h1 : ei < (w.exercises.length : Int)) :
    addSet w ei weight reps =
      .ok { w with exercises := (w.exercises.set ei.toNat
        { w.exercises.getD ei.toNat default with
          sets := (w.exercises.getD ei.toNat default).sets ++
            [⟨(w.exercises.getD ei.toNat default).sets.length + 1, weight, reps, false, none⟩] }) } := by
  unfold addSet
  rw [if_neg (by omega)]

theorem completeSet_eq_error_exercise (w : Workout) (ei si now : Int)
    (h : ei < 0 ∨ (w.exercises.length : Int) ≤ ei) :
    completeSet w ei si now = .error .rangeErrorExercise := by
  unfold completeSet
  rw [if_pos h]

theorem completeSet_eq_error_set (w : Workout) (ei si now : Int)
    (h0 : 0 ≤ ei) (h1 : ei < (w.exercises.length : Int))
    (h : si < 0 ∨ ((w.exercises.getD ei.toNat default).sets.length : Int) ≤ si) :
    completeSet w ei si now = .error .rangeErrorSet := by
  unfold completeSet
  rw [if_neg (by omega), if_pos h]

theorem completeSet_eq_ok (w : Workout) (ei si now : Int)
    (h0 : 0 ≤ ei) (h1 : ei < (w.exercises.length : Int))
    (h2 : 0 ≤ si) (h3 : si < ((w.exercises.getD ei.toNat default).sets.length : Int)) :
    completeSet w ei si now =
      .ok { w with exercises := (w.exercises.set ei.toNat
        { w.exercises.getD ei.toNat default with
          sets := (w.exercises.getD ei.toNat default).sets.set si.toNat
            (setComplete ((w.exercises.getD ei.toNat default).sets.getD si.toNat default) now) }) } := by
  unfold completeSet
  rw [if_neg (by omega), if_neg (by omega)]

theorem removeSet_eq_error_exercise (w : Workout) (ei si : Int)
    (h : ei < 0 ∨ (w.exercises.length : Int) ≤ ei) :
    removeSet w ei si = .error .rangeErrorExercise := by
  unfold removeSet
  rw [if_pos h]

theorem removeSet_eq_error_set (w : Workout) (ei si : Int)
    (h0 : 0 ≤ ei) (h1 : ei < (w.exercises.length : Int))
    (h : si < 0 ∨ ((w.exercises.getD ei.toNat default).sets.length : Int) ≤ si) :
    removeSet w ei si = .error .rangeErrorSet := by
  unfold removeSet
  rw [if_neg (by omega), if_pos h]

theorem removeSet_eq_ok (w : Workout) (ei si : Int)
    (h0 : 0 ≤ ei) (h1 : ei < (w.exercises.length : Int))
    (h2 : 0 ≤ si) (h3 : si < ((w.exercises.getD ei.toNat default).sets.length : Int)) :
    removeSet w ei si =
      .ok { w with exercises := (w.exercises.set ei.toNat
        { w.exercises.getD ei.toNat default with
          sets := renumber ((w.exercises.getD ei.toNat default).sets.eraseIdx si.toNat) }) } := by
  unfold removeSet
  rw [if_neg (by omega), if_neg (by omega)]

theorem length_filter_completed (l : List SetEntry) :
    (l.filter (fun s => s.completed)).length
      = (l.map (fun s => if s.completed then 1 else 0)).sum := by
  induction l with
  | nil => rfl
  | cons s rest ih =>
    by_cases h : s.completed <;> simp [List.filter, h, ih, Nat.add_comm]

theorem flatten_sets_length (l : List ExerciseLog) :
    ((l.map (fun e => e.sets)).flatten).length = (l.map logTotalSets).sum := by
  induction l with
  | nil => rfl
  | cons e rest ih =>
    simp only [List.map_cons, List.flatten_cons, List.length_append, List.sum_cons,
      ih, logTotalSets]

theorem flatten_sets_filter_length (l : List ExerciseLog) :
    (((l.map (fun e => e.sets)).flatten).filter (fun s => s.completed)).length
      = (l.map logCompletedSets).sum := by
  induction l with
  | nil => rfl
  | cons e rest ih =>
    simp only [List.map_cons, List.flatten_cons, List.filter_append, List.length_append,
      List.sum_cons, ih, logCompletedSets]
    rw [length_filter_completed e.sets]

theorem flatten_sets_volume (l : List ExerciseLog) :
    (((l.map (fun e => e.sets)).flatten).map (fun s => s.weight * s.reps)).sum
      = (l.map logVolume).sum := by
  induction l with
  | nil => rfl
  | cons e rest ih =>
    simp only [List.map_cons, List.flatten_cons, List.map_append, List.sum_append,
      List.sum_cons, ih, logVolume]

theorem workoutTotalWeight_nonneg (w : Workout)
    (hpos : ∀ e ∈ w.exercises, ∀ s ∈ e.sets, 0 ≤ s.weight ∧ 0 ≤ s.reps) :
    0 ≤ workoutTotalWeight w := by
  unfold workoutTotalWeight
  apply List.sum_nonneg
  intro x hx
  obtain ⟨e, he, rfl⟩ := List.mem_map.mp hx
  apply List.sum_nonneg
  intro y hy
  obtain ⟨s, hs, rfl⟩ := List.mem_map.mp hy
  exact mul_nonneg (hpos e he s hs).1 (hpos e he s hs).2

theorem volume_zero_of_sets_zero (l : List ExerciseLog)
    (h : (l.map logTotalSets).sum = 0) : (l.map logVolume).sum = 0 := by
  induction l with
  | nil => rfl
  | cons e rest ih =>
    simp only [List.map_cons, List.sum_cons] at h ⊢
    have h1 : logTotalSets e = 0 := by omega
    have h2 : (rest.map logTotalSets).sum = 0 := by omega
    have hsets : e.sets = [] := List.length_eq_zero.mp h1
    simp [logVolume, hsets, ih h2]

/-! ## Claim theorems -/

/-- C1: the computed intensity agrees with the specified formula
`round1(min(clamp((completedSets/totalSets) * 0.6 + min(totalWeight/1000, 1) * 0.4) * 10))`,
always lies in `[0, 10]`, and is 0 for a record with zero sets. -/
theorem calculateIntensity_spec (w : Workout)
    (hpos : ∀ e ∈ w.exercises, ∀ s ∈ e.sets, 0 ≤ s.weight ∧ 0 ≤ s.reps) :
    calculateIntensity w = specIntensity w ∧
    0 ≤ calculateIntensity w ∧
    calculateIntensity w ≤ 10 ∧
    (workoutTotalSets w = 0 → calculateIntensity w = 0) := by
  have hflip : ∀ (n : Nat) (a : ℚ), (if n > 0 then a else 0) = if n = 0 then 0 else a := by
    intro n a
    by_cases h : n = 0 <;> simp [h, Nat.pos_of_ne_zero]
  refine ⟨?_, ?_, ?_, ?_⟩
  · simp only [calculateIntensity, specIntensity, workoutTotalSets,
      workoutCompletedSets, workoutTotalWeight]
    rw [flatten_sets_length, flatten_sets_filter_length, flatten_sets_volume, hflip]
  · have htw : 0 ≤ workoutTotalWeight w := workoutTotalWeight_nonneg w hpos
    simp only [calculateIntensity]
    apply le_min ?_ (by norm_num)
    have hcr : (0 : ℚ) ≤
        (if workoutTotalSets w > 0
          then (workoutCompletedSets w : ℚ) / (workoutTotalSets w : ℚ) else 0) := by
      split
      · positivity
      · exact le_refl 0
    have hwf : (0 : ℚ) ≤ min (workoutTotalWeight w / 1000) 1 :=
      le_min (by positivity) (by norm_num)
    have hraw : (0 : ℚ) ≤
        ((if workoutTotalSets w > 0
            then (workoutCompletedSets w : ℚ) / (workoutTotalSets w : ℚ) else 0) * 0.6 +
          min (workoutTotalWeight w / 1000) 1 * 0.4) * 10 * 10 := by
      nlinarith [hcr, hwf]
    have := jsRound_nonneg hraw
    have hcast : (0 : ℚ) ≤ (jsRound
        (((if workoutTotalSets w > 0
            then (workoutCompletedSets w : ℚ) / (workoutTotalSets w : ℚ) else 0) * 0.6 +
          min (workoutTotalWeight w / 1000) 1 * 0.4) * 10 * 10) : ℚ) := by
      exact_mod_cast this
    linarith
  · simp only [calculateIntensity]
    exact min_le_right _ _
  · intro h
    have htw : workoutTotalWeight w = 0 := volume_zero_of_sets_zero _ h
    simp only [calculateIntensity, workoutTotalWeight] at htw ⊢
    rw [h, htw]
    norm_num [jsRound]

/-- C3: `completeWorkout` stamps `endTime = now`, stores
`duration = round((endTime - startTime) / 60000)` minutes and the computed
intensity, and marks the record completed; a 125000 ms session rounds to
2 minutes. -/
theorem completeWorkout_spec (w : Workout) (now : Int) :
    (completeWorkout w now).endTime = some now ∧
    (completeWorkout w now).duration
      = some (jsRound (((now - w.startTime : Int) : ℚ) / 60000)) ∧
    (completeWorkout w now).intensity = some (calculateIntensity w) ∧
    (completeWorkout w now).status = .completed ∧
    (now - w.startTime = 125000 → (completeWorkout w now).duration = some 2) := by
  refine ⟨rfl, rfl, rfl, rfl, ?_⟩
  intro h
  simp only [completeWorkout, h]
  norm_num [jsRound]

/-- C4: on a resolved record, `addSet` throws an index-out-of-range error for
any out-of-range `exerciseIndex`, and `completeSet` / `removeSet` throw for any
out-of-range `exerciseIndex` or `setIndex`; each such failure leaves the
persisted record unchanged. -/
theorem indexRange_errors (w : Workout) (ei si : Int) (weight reps : ℚ) (now : Int) :
    (ei < 0 ∨ (w.exercises.length : Int) ≤ ei →
      addSet w ei weight reps = .error .rangeErrorExercise ∧
      tryAddSet w ei weight reps = w ∧
      completeSet w ei si now = .error .rangeErrorExercise ∧
      tryCompleteSet w ei si now = w ∧
      removeSet w ei si = .error .rangeErrorExercise ∧
      tryRemoveSet w ei si = w) ∧
    (0 ≤ ei → ei < (w.exercises.length : Int) →
      (si < 0 ∨ ((w.exercises.getD ei.toNat default).sets.length : Int) ≤ si) →
      completeSet w ei si now = .error .rangeErrorSet ∧
      tryCompleteSet w ei si now = w ∧
      removeSet w ei si = .error .rangeErrorSet ∧
      tryRemoveSet w ei si = w) := by
  constructor
  · intro h
    refine ⟨addSet_eq_error w ei weight reps h, ?_,
      completeSet_eq_error_exercise w ei si now h, ?_,
      removeSet_eq_error_exercise w ei si h, ?_⟩
    · unfold tryAddSet
      rw [addSet_eq_error w ei weight reps h]
    · unfold tryCompleteSet
      rw [completeSet_eq_error_exercise w ei si now h]
    · unfold tryRemoveSet
      rw [removeSet_eq_error_exercise w ei si h]
  · intro h0 h1 h
    refine ⟨completeSet_eq_error_set w ei si now h0 h1 h, ?_,
      removeSet_eq_error_set w ei si h0 h1 h, ?_⟩
    · unfold tryCompleteSet
      rw [completeSet_eq_error_set w ei si now h0 h1 h]
    · unfold tryRemoveSet
      rw [removeSet_eq_error_set w ei si h0 h1 h]

/-- C6: with an in-range `exerciseIndex` on a record whose persisted sets
already satisfy the schema constraints, `addSet` followed by `save()` rejects
`weight < 0` or `reps < 1` with a `ValidationError` (persisting nothing), and
otherwise appends a set numbered `current count + 1` with `completed = false`. -/
theorem addSet_validation (w : Workout) (ei : Int) (weight reps : ℚ)
    (h0 : 0 ≤ ei) (h1 : ei < (w.exercises.length : Int))
    (hvalid : workoutSetsValid w) :
    ((weight < 0 ∨ reps < 1) →
      addSetSave w ei weight reps = .error .validationError) ∧
    (0 ≤ weight → 1 ≤ reps →
      ∃ w', addSetSave w ei weight reps = .ok w' ∧
        (w'.exercises.getD ei.toNat default).sets
          = (w.exercises.getD ei.toNat default).sets ++
            [⟨(w.exercises.getD ei.toNat default).sets.length + 1, weight, reps, false, none⟩]) := by
  have hlen : ei.toNat < w.exercises.length := by omega
  have hok := addSet_eq_ok w ei weight reps h0 h1
  constructor
  · intro hbad
    unfold addSetSave
    rw [hok]
    dsimp only
    rw [if_neg]
    intro hval
    have hmem : ({ w.exercises.getD ei.toNat default with
        sets := (w.exercises.getD ei.toNat default).sets ++
          [⟨(w.exercises.getD ei.toNat default).sets.length + 1, weight, reps, false, none⟩] }
          : ExerciseLog) ∈
        (w.exercises.set ei.toNat
          { w.exercises.getD ei.toNat default with
            sets := (w.exercises.getD ei.toNat default).sets ++
              [⟨(w.exercises.getD ei.toNat default).sets.length + 1, weight, reps, false, none⟩] }) :=
      getD_set_mem w.exercises ei.toNat _ hlen
    have hsmem : (⟨(w.exercises.getD ei.toNat default).sets.length + 1, weight, reps, false, none⟩
        : SetEntry) ∈
        ((w.exercises.getD ei.toNat default).sets ++
          [⟨(w.exercises.getD ei.toNat default).sets.length + 1, weight, reps, false, none⟩]) :=
      List.mem_append_right _ (List.mem_singleton.mpr rfl)
    have := hval _ hmem _ hsmem
    rcases this with ⟨-, hw, hr⟩
    rcases hbad with hb | hb
    · exact absurd hw (by simpa using not_le.mpr hb)
    · exact absurd hr (by simpa using not_le.mpr hb)
  · intro hw hr
    refine ⟨{ w with exercises := (w.exercises.set ei.toNat
        { w.exercises.getD ei.toNat default with
          sets := (w.exercises.getD ei.toNat default).sets ++
            [⟨(w.exercises.getD ei.toNat default).sets.length + 1, weight, reps, false, none⟩] }) },
      ?_, ?_⟩
    · unfold addSetSave
      rw [hok]
      dsimp only
      rw [if_pos]
      intro e he s hs
      rcases List.mem_or_eq_of_mem_set he with he' | rfl
      · exact hvalid e he' s hs
      · rcases List.mem_append.mp hs with hs' | hs'
        · refine hvalid _ ?_ s hs'
          rw [List.getD_eq_getElem _ _ hlen]
          exact List.getElem_mem hlen
        · rcases List.mem_singleton.mp hs' with rfl
          exact ⟨Nat.le_add_left 1 _, hw, hr⟩
    · rw [getD_set_self _ _ _ hlen]

/-- C7: `completeSet` is idempotent in effect — two successive calls on the
same in-range set both succeed, the set reads `completed = true` after each,
and `completedAt` carries the timestamp of the latest call. -/
theorem completeSet_idempotent (w : Workout) (ei si t1 t2 : Int)
    (h0 : 0 ≤ ei) (h1 : ei < (w.exercises.length : Int))
    (h2 : 0 ≤ si) (h3 : si < ((w.exercises.getD ei.toNat default).sets.length : Int)) :
    ∃ w1 w2,
      completeSet w ei si t1 = .ok w1 ∧
      completeSet w1 ei si t2 = .ok w2 ∧
      ((w1.exercises.getD ei.toNat default).sets.getD si.toNat default).completed = true ∧
      ((w1.exercises.getD ei.toNat default).sets.getD si.toNat default).completedAt = some t1 ∧
      ((w2.exercises.getD ei.toNat default).sets.getD si.toNat default).completed = true ∧
      ((w2.exercises.getD ei.toNat default).sets.getD si.toNat default).completedAt = some t2 := by
  have hlen : ei.toNat < w.exercises.length := by omega
  have hslen : si.toNat < (w.exercises.getD ei.toNat default).sets.length := by omega
  have hok1 := completeSet_eq_ok w ei si t1 h0 h1 h2 h3
  set ex := w.exercises.getD ei.toNat default with hex
  set s0 := ex.sets.getD si.toNat default with hs0
  set ex1 : ExerciseLog := { ex with sets := ex.sets.set si.toNat (setComplete s0 t1) } with hex1
  set w1 : Workout := { w with exercises := w.exercises.set ei.toNat ex1 } with hw1
  have hget1 : w1.exercises.getD ei.toNat default = ex1 := by
    rw [hw1]
    exact getD_set_self _ _ _ hlen
  have hsget1 : ex1.sets.getD si.toNat default = setComplete s0 t1 := by
    rw [hex1]
    exact getD_set_self _ _ _ hslen
  have h1' : ei < (w1.exercises.length : Int) := by
    rw [hw1]
    simpa [List.length_set] using h1
  have h3' : si < ((w1.exercises.getD ei.toNat default).sets.length : Int) := by
    rw [hget1, hex1]
    simpa [List.length_set] using h3
  have hok2 := completeSet_eq_ok w1 ei si t2 h0 h1' h2 h3'
  rw [hget1, hsget1] at hok2
  have hslen1 : si.toNat < ex1.sets.length := by
    rw [hex1]
    simpa [List.length_set] using hslen
  have hlen1 : ei.toNat < w1.exercises.length := by
    rw [hw1]
    simpa [List.length_set] using hlen
  refine ⟨w1, _, hok1, hok2, ?_, ?_, ?_, ?_⟩
  · rw [hget1, hsget1]
    rfl
  · rw [hget1, hsget1]
    rfl
  · rw [getD_set_self _ _ _ hlen1, getD_set_self _ _ _ hslen1]
    rfl
  · rw [getD_set_self _ _ _ hlen1, getD_set_self _ _ _ hslen1]
    rfl

theorem setsNumbered_append_new (l : List SetEntry) (hl : setsNumbered l)
    (s : SetEntry) (hs : s.setNumber = l.length + 1) :
    setsNumbered (l ++ [s]) := by
  intro j h
  rw [List.get_eq_getElem]
  rw [List.length_append, List.length_singleton] at h
  by_cases hj : j < l.length
  · rw [List.getElem_append_left hj]
    exact setsNumbered_getElem hl j hj
  · have hj2 : j = l.length := by omega
    subst hj2
    rw [List.getElem_append_right (Nat.le_refl _)]
    simpa using hs

theorem addSet_preserves_numbered (w : Workout) (ei : Int) (weight reps : ℚ)
    (w2 : Workout) (h : addSet w ei weight reps = .ok w2)
    (hnum : workoutNumbered w) : workoutNumbered w2 := by
  simp only [addSet] at h
  split at h
  next => exact absurd h (by simp)
  next hg =>
    push_neg at hg
    have hlen : ei.toNat < w.exercises.length := by omega
    simp only [Except.ok.injEq] at h
    subst h
    intro e he
    rcases List.mem_or_eq_of_mem_set he with he' | rfl
    · exact hnum e he'
    · apply setsNumbered_append_new
      · apply hnum
        rw [List.getD_eq_getElem _ _ hlen]
        exact List.getElem_mem hlen
      · rfl

theorem addSet_ok_sets (w : Workout) (ei : Int) (weight reps : ℚ) (w2 : Workout)
    (h : addSet w ei weight reps = .ok w2) :
    (w2.exercises.getD ei.toNat default).sets
      = (w.exercises.getD ei.toNat default).sets ++
        [⟨(w.exercises.getD ei.toNat default).sets.length + 1, weight, reps, false, none⟩] := by
  simp only [addSet] at h
  split at h
  next => exact absurd h (by simp)
  next hg =>
    push_neg at hg
    have hlen : ei.toNat < w.exercises.length := by omega
    simp only [Except.ok.injEq] at h
    subst h
    rw [getD_set_self _ _ _ hlen]

theorem removeSet_ok_numbered (w : Workout) (ei si : Int) (w2 : Workout)
    (h : removeSet w ei si = .ok w2) :
    setsNumbered (w2.exercises.getD ei.toNat default).sets ∧
    (workoutNumbered w → workoutNumbered w2) ∧
    (w2.exercises.getD ei.toNat default).sets.map setData
      = ((w.exercises.getD ei.toNat default).sets.eraseIdx si.toNat).map setData := by
  simp only [removeSet] at h
  split at h
  next => exact absurd h (by simp)
  next hg1 =>
    split at h
    next => exact absurd h (by simp)
    next hg2 =>
      push_neg at hg1 hg2
      have hlen : ei.toNat < w.exercises.length := by omega
      simp only [Except.ok.injEq] at h
      subst h
      refine ⟨?_, ?_, ?_⟩
      · rw [getD_set_self _ _ _ hlen]
        exact renumber_numbered _
      · intro hnum e he
        rcases List.mem_or_eq_of_mem_set he with he' | rfl
        · exact hnum e he'
        · exact renumber_numbered _
      · rw [getD_set_self _ _ _ hlen]
        exact renumberFrom_setData 1 _

theorem applyOp_numbered (w : Workout) (op : WOp) (hnum : workoutNumbered w) :
    workoutNumbered (applyOp w op) := by
  cases op with
  | addSetOp ei weight reps =>
    cases h : addSet w ei weight reps with
    | error e => simpa only [applyOp, tryAddSet, h] using hnum
    | ok w2 =>
      simp only [applyOp, tryAddSet, h]
      exact addSet_preserves_numbered w ei weight reps w2 h hnum
  | removeSetOp ei si =>
    cases h : removeSet w ei si with
    | error e => simpa only [applyOp, tryRemoveSet, h] using hnum
    | ok w2 =>
      simp only [applyOp, tryRemoveSet, h]
      exact (removeSet_ok_numbered w ei si w2 h).2.1 hnum

theorem applyOps_numbered (w : Workout) (ops : List WOp) (hnum : workoutNumbered w) :
    workoutNumbered (applyOps w ops) := by
  induction ops generalizing w with
  | nil => simpa only [applyOps, List.foldl_nil] using hnum
  | cons op rest ih =>
    simp only [applyOps, List.foldl_cons]
    exact ih _ (applyOp_numbered w op hnum)

/-- C2: a successful `removeSet` deletes the addressed set, renumbers the
surviving sets of that exercise log to the contiguous `setNumber = j + 1`
contract in their original relative order, and keeps every log of the record
numbered; the numbering invariant is preserved by every sequence of
`addSet` / `removeSet` requests from a record that satisfies it (in
particular from empty logs), with `addSet` appending a set numbered
`current count + 1`. -/
theorem removeSet_renumbering_invariant (w : Workout) (ei si : Int) (w2 : Workout)
    (ops : List WOp) (hrm : removeSet w ei si = .ok w2) (hnum : workoutNumbered w) :
    setsNumbered (w2.exercises.getD ei.toNat default).sets ∧
    (w2.exercises.getD ei.toNat default).sets.map setData
      = ((w.exercises.getD ei.toNat default).sets.eraseIdx si.toNat).map setData ∧
    workoutNumbered w2 ∧
    workoutNumbered (applyOps w ops) ∧
    (∀ (weight reps : ℚ) (w3 : Workout), addSet w ei weight reps = .ok w3 →
      (w3.exercises.getD ei.toNat default).sets
        = (w.exercises.getD ei.toNat default).sets ++
          [⟨(w.exercises.getD ei.toNat default).sets.length + 1, weight, reps, false, none⟩]) := by
  obtain ⟨h1, h2, h3⟩ := removeSet_ok_numbered w ei si w2 hrm
  exact ⟨h1, h3, h2 hnum, applyOps_numbered w ops hnum,
    fun weight reps w3 hadd => addSet_ok_sets w ei weight reps w3 hadd⟩

theorem completeSet_counts (w : Workout) (ei si now : Int) (w2 : Workout)
    (h : completeSet w ei si now = .ok w2) :
    workoutTotalSets w2 = workoutTotalSets w ∧
    workoutTotalWeight w2 = workoutTotalWeight w ∧
    workoutCompletedSets w ≤ workoutCompletedSets w2 := by
  simp only [completeSet] at h
  split at h
  next => exact absurd h (by simp)
  next hg1 =>
    split at h
    next => exact absurd h (by simp)
    next hg2 =>
      push_neg at hg1 hg2
      have hlen : ei.toNat < w.exercises.length := by omega
      have hslen : si.toNat < (w.exercises.getD ei.toNat default).sets.length := by omega
      simp only [Except.ok.injEq] at h
      subst h
      refine ⟨?_, ?_, ?_⟩
      · simp only [workoutTotalSets]
        apply sum_map_set_eq
        intro hi
        rw [List.get_eq_getElem, ← List.getD_eq_getElem w.exercises default hi]
        simp only [logTotalSets, List.length_set]
      · simp only [workoutTotalWeight]
        apply sum_map_set_eq
        intro hi
        rw [List.get_eq_getElem, ← List.getD_eq_getElem w.exercises default hi]
        simp only [logVolume]
        apply sum_map_set_eq
        intro hj
        rw [List.get_eq_getElem,
          ← List.getD_eq_getElem (w.exercises.getD ei.toNat default).sets default hj]
        rfl
      · simp only [workoutCompletedSets]
        apply sum_map_set_le
        intro hi
        rw [List.get_eq_getElem, ← List.getD_eq_getElem w.exercises default hi]
        simp only [logCompletedSets]
        apply sum_map_set_le
        intro hj
        rw [List.get_eq_getElem,
          ← List.getD_eq_getElem (w.exercises.getD ei.toNat default).sets default hj]
        split <;> simp [setComplete]

theorem calculateIntensity_mono_of_counts {w w2 : Workout}
    (hts : workoutTotalSets w2 = workoutTotalSets w)
    (htw : workoutTotalWeight w2 = workoutTotalWeight w)
    (hcs : workoutCompletedSets w ≤ workoutCompletedSets w2) :
    calculateIntensity w ≤ calculateIntensity w2 := by
  simp only [calculateIntensity, hts, htw]
  apply min_le_min ?_ (le_refl 10)
  have hcr : (if workoutTotalSets w > 0
        then (workoutCompletedSets w : ℚ) / (workoutTotalSets w : ℚ) else 0)
      ≤ (if workoutTotalSets w > 0
        then (workoutCompletedSets w2 : ℚ) / (workoutTotalSets w : ℚ) else 0) := by
    split
    · next hpos =>
      have hts0 : (0 : ℚ) < (workoutTotalSets w : ℚ) := by exact_mod_cast hpos
      exact (div_le_div_iff_of_pos_right hts0).mpr (by exact_mod_cast hcs)
    · exact le_refl 0
  have hraw :
      ((if workoutTotalSets w > 0
          then (workoutCompletedSets w : ℚ) / (workoutTotalSets w : ℚ) else 0) * 0.6 +
        min (workoutTotalWeight w / 1000) 1 * 0.4) * 10 * 10
      ≤ ((if workoutTotalSets w > 0
          then (workoutCompletedSets w2 : ℚ) / (workoutTotalSets w : ℚ) else 0) * 0.6 +
        min (workoutTotalWeight w / 1000) 1 * 0.4) * 10 * 10 := by
    nlinarith [hcr]
  have hjr := jsRound_le_jsRound hraw
  have hcast : ((jsRound (((if workoutTotalSets w > 0
      then (workoutCompletedSets w : ℚ) / (workoutTotalSets w : ℚ) else 0) * 0.6 +
      min (workoutTotalWeight w / 1000) 1 * 0.4) * 10 * 10) : Int) : ℚ)
      ≤ ((jsRound (((if workoutTotalSets w > 0
      then (workoutCompletedSets w2 : ℚ) / (workoutTotalSets w : ℚ) else 0) * 0.6 +
      min (workoutTotalWeight w / 1000) 1 * 0.4) * 10 * 10) : Int) : ℚ) := by
    exact_mod_cast hjr
  linarith

/-- C10: marking a set completed never lowers the intensity score — after a
successful `completeSet`, `calculateIntensity` is at least its prior value,
since `totalSets` and `totalWeight` are unchanged while `completedSets` can
only grow. -/
theorem completeSet_intensity_mono (w : Workout) (ei si now : Int) (w2 : Workout)
    (h : completeSet w ei si now = .ok w2) :
    calculateIntensity w ≤ calculateIntensity w2 := by
  obtain ⟨hts, htw, hcs⟩ := completeSet_counts w ei si now w2 h
  exact calculateIntensity_mono_of_counts hts htw hcs

instance : DecidablePred setsNumbered := fun l => by
  unfold setsNumbered
  infer_instance

instance : DecidablePred workoutNumbered := fun w => by
  unfold workoutNumbered
  infer_instance

/-- C5 (amended): the ownership check guards `getWorkoutById` and the five
mutator endpoints — a caller whose username differs from the record's gets
403 with no data and the record untouched — but the PUT update and the DELETE
perform no username check at all and succeed for any caller. -/
theorem username_scoping (stored : Workout) (u : String) (hu : u ≠ stored.username)
    (exerciseId : Nat) (ei si now : Int) (weight reps : ℚ)
    (body : Controller.UpdateData) :
    Controller.getWorkoutById stored (some u) = ⟨.forbidden, false, none⟩ ∧
    Controller.addExerciseToWorkout stored (some u) exerciseId
      = (⟨.forbidden, false, none⟩, stored) ∧
    Controller.addSetToWorkout stored (some u) ei weight reps
      = (⟨.forbidden, false, none⟩, stored) ∧
    Controller.completeSetInWorkout stored (some u) ei si now
      = (⟨.forbidden, false, none⟩, stored) ∧
    Controller.deleteSetFromWorkout stored (some u) ei si
      = (⟨.forbidden, false, none⟩, stored) ∧
    Controller.completeWorkoutReq stored (some u) now
      = (⟨.forbidden, false, none⟩, stored) ∧
    (Controller.updateWorkout stored body).1.status = .ok ∧
    (Controller.deleteWorkout stored).1.status = .ok := by
  have hne : stored.username ≠ u := Ne.symm hu
  refine ⟨?_, ?_, ?_, ?_, ?_, ?_, rfl, rfl⟩
  · simp only [Controller.getWorkoutById]
    rw [if_pos hne]
  · simp only [Controller.addExerciseToWorkout]
    rw [if_pos hne]
  · simp only [Controller.addSetToWorkout]
    rw [if_pos hne]
  · simp only [Controller.completeSetInWorkout]
    rw [if_pos hne]
  · simp only [Controller.deleteSetFromWorkout]
    rw [if_pos hne]
  · simp only [Controller.completeWorkoutReq]
    rw [if_pos hne]

/-- An in-progress record owned by `alice` with no exercises, used for the
concrete checks below. -/
def aliceRecord : Workout :=
  { username := "alice", date := 0, startTime := 0, endTime := none,
    duration := none, exercises := [], intensity := none, notes := "",
    status := .inProgress }

/-- C5 counterexample: the PUT route, invoked by a caller supplying
username `bob` on `alice`'s record, answers 200 and rewrites the record
(even its owner); the DELETE route answers 200 and deletes the record
without consulting any caller username — neither fails with Forbidden. -/
theorem updateDelete_not_scoped :
    (Controller.updateWorkout aliceRecord ⟨some "bob", some "hijacked"⟩).1.status
      = .ok ∧
    (Controller.updateWorkout aliceRecord ⟨some "bob", some "hijacked"⟩).2.username
      = "bob" ∧
    (Controller.updateWorkout aliceRecord ⟨some "bob", some "hijacked"⟩).2
      ≠ aliceRecord ∧
    (Controller.deleteWorkout aliceRecord).1.status = .ok ∧
    (Controller.deleteWorkout aliceRecord).2 = none := by
  decide

theorem sum_intensityContribution (ws : List Workout) :
    (ws.map intensityContribution).sum = (definedIntensities ws).sum := by
  induction ws with
  | nil => rfl
  | cons w rest ih =>
    simp only [List.map_cons, List.sum_cons, definedIntensities, List.filterMap_cons]
    cases hw : w.intensity with
    | none =>
      simpa [intensityContribution, hw, definedIntensities] using ih
    | some q =>
      by_cases hq : q = 0
      · subst hq
        simp [intensityContribution, hw, definedIntensities] at ih ⊢
        exact ih
      · simp [intensityContribution, hw, hq, definedIntensities] at ih ⊢
        simpa [ih] using rfl

/-- C8 (amended): `averageIntensity` accumulates only the defined (truthy)
intensity values but divides by the number of *all* fetched records, rounds to
one decimal, and is 0 when there are no records; so records with intensity 0
add nothing to the numerator, while records with an absent intensity still
enlarge the denominator and pull the reported mean below the mean of the
defined values. -/
theorem averageIntensity_amended (ws : List Workout) :
    (0 < ws.length →
      (getWorkoutStats ws).averageIntensity
        = (jsRound (((definedIntensities ws).sum / (ws.length : ℚ)) * 10) : ℚ) / 10) ∧
    (ws.length = 0 → (getWorkoutStats ws).averageIntensity = 0) := by
  constructor
  · intro h
    simp only [getWorkoutStats, sum_intensityContribution, if_pos h]
  · intro h
    simp only [getWorkoutStats]
    rw [if_neg (by omega)]

/-- A completed record of `alice` carrying intensity 5. -/
def recWithIntensity : Workout :=
  { aliceRecord with intensity := some 5, status := .completed }

/-- C8 counterexample: over one record with intensity 5 and one record with
no intensity, the code reports 2.5 while the mean of the defined intensity
values is 5 — an absent intensity does distort the reported mean. -/
theorem averageIntensity_counterexample :
    (getWorkoutStats [recWithIntensity, aliceRecord]).averageIntensity = 5 / 2 ∧
    meanDefinedIntensity [recWithIntensity, aliceRecord] = 5 ∧
    (getWorkoutStats [recWithIntensity, aliceRecord]).averageIntensity
      ≠ meanDefinedIntensity [recWithIntensity, aliceRecord] := by
  norm_num [getWorkoutStats, meanDefinedIntensity, definedIntensities,
    intensityContribution, jsRound, aliceRecord, recWithIntensity,
    List.filterMap_cons, List.filterMap_nil]

/-- C9 (spec-modelled): with fewer than 6 qualifying sessions
`volumeChangeRate` is the pinned fallback 0 (the function is total, so no
`NaN` and no exception can arise); with at least 6 sessions it is the
percentage change of the average volume of the 3 most recent sessions against
the average of the 3 before those, the zero-baseline case falling back to 0. -/
theorem volumeChangeRate_spec (sessions : List HistorySession) :
    (sessions.length < 6 → volumeChangeRate sessions = 0) ∧
    (6 ≤ sessions.length →
      (avgList (((sessions.map sessionVolume).drop 3).take 3) = 0 →
        volumeChangeRate sessions = 0) ∧
      (avgList (((sessions.map sessionVolume).drop 3).take 3) ≠ 0 →
        volumeChangeRate sessions =
          ((avgList ((sessions.map sessionVolume).take 3)
              - avgList (((sessions.map sessionVolume).drop 3).take 3))
            / avgList (((sessions.map sessionVolume).drop 3).take 3)) * 100)) := by
  constructor
  · intro h
    simp only [volumeChangeRate, if_pos h]
  · intro h
    have hnl : ¬ sessions.length < 6 := by omega
    constructor
    · intro hz
      simp only [volumeChangeRate]
      rw [if_neg hnl, if_pos hz]
    · intro hz
      simp only [volumeChangeRate]
      rw [if_neg hnl, if_neg hz]

/-! ## Concrete data for the witnesses -/

/-- A log with one completed and one pending 50 kg × 5 set (volume 500). -/
def sampleLog : ExerciseLog :=
  ⟨1, [⟨1, 50, 5, true, some 100⟩, ⟨2, 50, 5, false, none⟩], ""⟩

/-- `alice`'s in-progress record holding `sampleLog` (the §8 test vector:
2 sets, 1 completed, volume 500 → intensity 5.0). -/
def sampleWorkout : Workout :=
  { username := "alice", date := 0, startTime := 0, endTime := none,
    duration := none, exercises := [sampleLog], intensity := none, notes := "",
    status := .inProgress }

/-- Six qualifying sessions, most recent first: three of volume 300 after
three of volume 200 (a +50% trend). -/
def sampleSessions : List HistorySession :=
  [⟨6, [⟨1, 30, 10, true, none⟩]⟩, ⟨5, [⟨1, 30, 10, true, none⟩]⟩,
   ⟨4, [⟨1, 30, 10, true, none⟩]⟩, ⟨3, [⟨1, 20, 10, true, none⟩]⟩,
   ⟨2, [⟨1, 20, 10, true, none⟩]⟩, ⟨1, [⟨1, 20, 10, true, none⟩]⟩]

/-! ## Witnesses -/

/-- Witness for C1 on the §8 vector (2 sets, 1 completed, volume 500),
whose intensity evaluates to 5. -/
theorem calculateIntensity_spec_witness :
    (calculateIntensity sampleWorkout = specIntensity sampleWorkout ∧
      0 ≤ calculateIntensity sampleWorkout ∧
      calculateIntensity sampleWorkout ≤ 10 ∧
      (workoutTotalSets sampleWorkout = 0 → calculateIntensity sampleWorkout = 0)) ∧
    calculateIntensity sampleWorkout = 5 :=
  ⟨calculateIntensity_spec sampleWorkout (by decide),
   by norm_num [calculateIntensity, workoutTotalSets, workoutCompletedSets,
     workoutTotalWeight, logTotalSets, logCompletedSets, logVolume,
     sampleWorkout, sampleLog, jsRound, min_def]⟩

/-- Witness for C2: removing the first set of `sampleWorkout` succeeds and
leaves the log renumbered, and an add/remove sequence from the sample record
keeps every log numbered. -/
theorem removeSet_renumbering_invariant_witness :
    setsNumbered ((tryRemoveSet sampleWorkout 0 0).exercises.getD 0 default).sets ∧
    workoutNumbered (applyOps sampleWorkout [.addSetOp 0 60 8, .removeSetOp 0 0]) := by
  have h := removeSet_renumbering_invariant sampleWorkout 0 0
    (tryRemoveSet sampleWorkout 0 0) [.addSetOp 0 60 8, .removeSetOp 0 0]
    rfl (by decide)
  exact ⟨h.1, h.2.2.2.1⟩

/-- Witness for C3 at `startTime = 0`, `now = 125000`: duration 2 minutes. -/
theorem completeWorkout_spec_witness :
    (completeWorkout sampleWorkout 125000).endTime = some 125000 ∧
    (completeWorkout sampleWorkout 125000).status = .completed ∧
    (completeWorkout sampleWorkout 125000).duration = some 2 := by
  have h := completeWorkout_spec sampleWorkout 125000
  exact ⟨h.1, h.2.2.2.1, h.2.2.2.2 (by decide)⟩

/-- Witness for C4 at the out-of-range indices 5 (exercise) and 7 (set). -/
theorem indexRange_errors_witness :
    (addSet sampleWorkout 5 20 5 = .error .rangeErrorExercise ∧
      tryAddSet sampleWorkout 5 20 5 = sampleWorkout ∧
      completeSet sampleWorkout 5 7 99 = .error .rangeErrorExercise ∧
      tryCompleteSet sampleWorkout 5 7 99 = sampleWorkout ∧
      removeSet sampleWorkout 5 7 = .error .rangeErrorExercise ∧
      tryRemoveSet sampleWorkout 5 7 = sampleWorkout) ∧
    (completeSet sampleWorkout 0 7 99 = .error .rangeErrorSet ∧
      tryCompleteSet sampleWorkout 0 7 99 = sampleWorkout ∧
      removeSet sampleWorkout 0 7 = .error .rangeErrorSet ∧
      tryRemoveSet sampleWorkout 0 7 = sampleWorkout) :=
  ⟨(indexRange_errors sampleWorkout 5 7 20 5 99).1 (by decide),
   (indexRange_errors sampleWorkout 0 7 20 5 99).2 (by decide) (by decide) (by decide)⟩

/-- Witness for C5 on `alice`'s record queried and mutated by `bob`. -/
theorem username_scoping_witness :
    Controller.getWorkoutById aliceRecord (some "bob") = ⟨.forbidden, false, none⟩ ∧
    Controller.completeWorkoutReq aliceRecord (some "bob") 50
      = (⟨.forbidden, false, none⟩, aliceRecord) :=
  ⟨(username_scoping aliceRecord "bob" (by decide) 0 0 0 0 0 0 ⟨none, none⟩).1,
   (username_scoping aliceRecord "bob" (by decide) 0 0 0 0 0 0 ⟨none, none⟩).2.2.2.2.2.1⟩

/-- Witness for C6: on `sampleWorkout`, a negative weight is rejected with a
`ValidationError` while a 60 kg × 8 set is appended as set number 3. -/
theorem addSet_validation_witness :
    addSetSave sampleWorkout 0 (-1) 5 = .error .validationError ∧
    (∃ w2, addSetSave sampleWorkout 0 60 8 = .ok w2 ∧
      (w2.exercises.getD 0 default).sets
        = (sampleWorkout.exercises.getD 0 default).sets ++
          [⟨(sampleWorkout.exercises.getD 0 default).sets.length + 1, 60, 8, false, none⟩]) :=
  ⟨(addSet_validation sampleWorkout 0 (-1) 5 (by decide) (by decide) (by decide)).1
      (Or.inl (by norm_num)),
   (addSet_validation sampleWorkout 0 60 8 (by decide) (by decide) (by decide)).2
      (by norm_num) (by norm_num)⟩

/-- Witness for C7: completing set index 1 of `sampleWorkout` twice, at
timestamps 100 then 200. -/
theorem completeSet_idempotent_witness :
    ∃ w1 w2,
      completeSet sampleWorkout 0 1 100 = .ok w1 ∧
      completeSet w1 0 1 200 = .ok w2 ∧
      ((w1.exercises.getD (0 : Int).toNat default).sets.getD (1 : Int).toNat
        default).completed = true ∧
      ((w1.exercises.getD (0 : Int).toNat default).sets.getD (1 : Int).toNat
        default).completedAt = some 100 ∧
      ((w2.exercises.getD (0 : Int).toNat default).sets.getD (1 : Int).toNat
        default).completed = true ∧
      ((w2.exercises.getD (0 : Int).toNat default).sets.getD (1 : Int).toNat
        default).completedAt = some 200 :=
  completeSet_idempotent sampleWorkout 0 1 100 200
    (by decide) (by decide) (by decide) (by decide)

/-- Witness for C8 on a singleton list (average = its only intensity) and on
the empty fetch (average 0). -/
theorem averageIntensity_amended_witness :
    (getWorkoutStats [recWithIntensity]).averageIntensity
      = (jsRound (((definedIntensities [recWithIntensity]).sum
          / (([recWithIntensity] : List Workout).length : ℚ)) * 10) : ℚ) / 10 ∧
    (getWorkoutStats ([] : List Workout)).averageIntensity = 0 :=
  ⟨(averageIntensity_amended [recWithIntensity]).1 (by decide),
   (averageIntensity_amended ([] : List Workout)).2 rfl⟩

/-- Witness for C9: three sessions fall back to 0; six sessions of volumes
300,300,300,200,200,200 give the +50% change rate. -/
theorem volumeChangeRate_spec_witness :
    volumeChangeRate (sampleSessions.take 3) = 0 ∧
    volumeChangeRate sampleSessions
      = ((avgList ((sampleSessions.map sessionVolume).take 3)
          - avgList (((sampleSessions.map sessionVolume).drop 3).take 3))
        / avgList (((sampleSessions.map sessionVolume).drop 3).take 3)) * 100 ∧
    volumeChangeRate sampleSessions = 50 :=
  ⟨(volumeChangeRate_spec (sampleSessions.take 3)).1 (by decide),
   ((volumeChangeRate_spec sampleSessions).2 (by decide)).2
     (by norm_num [avgList, sessionVolume, sampleSessions]),
   by norm_num [volumeChangeRate, avgList, sessionVolume, sampleSessions]⟩

/-- Witness for C10: completing the pending set of `sampleWorkout` raises the
intensity from 5 to 8. -/
theorem completeSet_intensity_mono_witness :
    calculateIntensity sampleWorkout
      ≤ calculateIntensity (tryCompleteSet sampleWorkout 0 1 100) :=
  completeSet_intensity_mono sampleWorkout 0 1 100
    (tryCompleteSet sampleWorkout 0 1 100) rfl

end WorkoutApp
